import Mathlib

/-!
Shallow embedding of `graph_delete_extension_node`
(`core/src/ten_manager/src/designer/graphs/nodes/delete.rs`) from the
ten-framework repository, together with proofs of the specified properties
of the transactional node-deletion and referential-cleanup algorithm.

The graph data model (`Graph`, `GraphNode`, `GraphConnection`,
`GraphMessageFlow`, `GraphDestination`, `GraphLoc`) lives in the external
`ten_rust` crate; it is modelled here from the spec's data-model section.
The external validator `validate_and_complete_and_flatten` is likewise
external; per the spec it is an opaque capability
`validate(graph) -> Result<(), Error>` whose success/failure boundary is
the commit/rollback trigger, so the embedding takes it as a parameter.
-/

namespace TenGraph

/-- Modelled from the spec: a `Location` is an
`(extension : Option String, app : Option String)` pair identifying a graph
participant (other fields of the `ten_rust` type are out of scope). -/
structure GraphLoc where
  extension : Option String
  app : Option String
deriving DecidableEq

/-- Modelled from the spec: a `Destination` is a `Location` naming the
receiving extension. -/
structure GraphDestination where
  loc : GraphLoc
deriving DecidableEq

/-- Modelled from the spec: a `MessageFlow` is a flow name plus an ordered
sequence of `Destination`. -/
structure GraphMessageFlow where
  name : String
  dest : List GraphDestination
deriving DecidableEq

/-- Modelled from the spec: a `Connection` is a source `Location` plus four
optional edge-category containers `cmd`, `data`, `audio_frame`,
`video_frame`, each an ordered sequence of `MessageFlow`. -/
structure GraphConnection where
  loc : GraphLoc
  cmd : Option (List GraphMessageFlow) := none
  data : Option (List GraphMessageFlow) := none
  audio_frame : Option (List GraphMessageFlow) := none
  video_frame : Option (List GraphMessageFlow) := none
deriving DecidableEq

/-- Modelled from the spec: the node variant tag; only the `Extension`
variant participates in this deletion flow. -/
inductive GraphNodeType where
  | extension
  | subgraph
deriving DecidableEq

/-- Modelled from the spec: a `Node` is a variant tag plus the identity
fields `name`, `addon` (optional at the type level), `extension_group`
(optional) and `app` (optional). -/
structure GraphNode where
  type_ : GraphNodeType
  name : String
  addon : Option String
  extension_group : Option String := none
  app : Option String := none
deriving DecidableEq

/-- Modelled from the spec: a `Graph` owns an ordered sequence of `Node`
and an optional ordered sequence of `Connection`. -/
structure Graph where
  nodes : List GraphNode
  connections : Option (List GraphConnection)
deriving DecidableEq

/-- The node predicate of the `retain` call at delete.rs:53-59 (negated
there): a node matches the target identity when its variant is `Extension`
and its four identity fields equal the target
(`node.addon == Some(addon.clone())`, `node.app == app`,
`node.extension_group == extension_group`). -/
def nodeMatchesTarget (node : GraphNode) (pkg_name : String) (addon : String)
    (app : Option String) (extension_group : Option String) : Bool :=
  node.type_ == GraphNodeType.extension
    && node.name == pkg_name
    && node.addon == some addon
    && node.app == app
    && node.extension_group == extension_group

/-- The location predicate used both for whole-connection removal
(delete.rs:69-72) and destination filtering (delete.rs:79-82 and the three
analogous blocks): `loc.extension.as_ref() == Some(&pkg_name) && loc.app == app`. -/
def locMatchesTarget (loc : GraphLoc) (pkg_name : String)
    (app : Option String) : Bool :=
  loc.extension == some pkg_name && loc.app == app

/-- The inner destination `retain` of each per-category block
(e.g. delete.rs:79-82): keep exactly the destinations that do not match
the target location. -/
def filterFlowDest (flow : GraphMessageFlow) (pkg_name : String)
    (app : Option String) : GraphMessageFlow :=
  { flow with
    dest := flow.dest.filter fun dest => !(locMatchesTarget dest.loc pkg_name app) }

/-- One per-category block (delete.rs:77-86 and the three analogous
blocks): filter every flow's destinations, then drop flows whose
destination list became empty. -/
def processFlows (flows : List GraphMessageFlow) (pkg_name : String)
    (app : Option String) : List GraphMessageFlow :=
  (flows.map fun flow => filterFlowDest flow pkg_name app).filter
    fun flow => !flow.dest.isEmpty

/-- The body of the `for connection in connections.iter_mut()` loop
(delete.rs:75-123): apply the per-category block to each of the four
edge-category containers that is present. -/
def cleanupConnection (connection : GraphConnection) (pkg_name : String)
    (app : Option String) : GraphConnection :=
  { connection with
    cmd := connection.cmd.map fun flows => processFlows flows pkg_name app
    data := connection.data.map fun flows => processFlows flows pkg_name app
    audio_frame :=
      connection.audio_frame.map fun flows => processFlows flows pkg_name app
    video_frame :=
      connection.video_frame.map fun flows => processFlows flows pkg_name app }

/-- The final connection `retain` predicate (delete.rs:126-134): a
connection is kept when at least one of its four category containers is
present and non-empty. -/
def connectionHasFlows (conn : GraphConnection) : Bool :=
  let has_cmd := conn.cmd.any fun c => !c.isEmpty
  let has_data := conn.data.any fun d => !d.isEmpty
  let has_audio := conn.audio_frame.any fun a => !a.isEmpty
  let has_video := conn.video_frame.any fun v => !v.isEmpty
  has_cmd || has_data || has_audio || has_video

/-- The connection-cleanup sequence of delete.rs:67-134 on the connection
list: (1) remove whole connections whose own `loc` matches the target,
(2) filter destinations per category and drop emptied flows, (3) remove
connections with no message flows left. -/
def cleanupConnections (connections : List GraphConnection)
    (pkg_name : String) (app : Option String) : List GraphConnection :=
  let step1 := connections.filter fun conn =>
    !(locMatchesTarget conn.loc pkg_name app)
  let step2 := step1.map fun conn => cleanupConnection conn pkg_name app
  step2.filter connectionHasFlows

/-- The node-removal step (delete.rs:52-59): `graph.nodes.retain(|node| !(…))`. -/
def removeMatchingNodes (graph : Graph) (pkg_name : String) (addon : String)
    (app : Option String) (extension_group : Option String) : Graph :=
  { graph with
    nodes := graph.nodes.filter fun node =>
      !(nodeMatchesTarget node pkg_name addon app extension_group) }

/-- The whole connection-cascade stage on the graph (delete.rs:67-140):
run `cleanupConnections` on the connection list when it is present, and set
`connections` to `None` if the cleaned list is empty (delete.rs:137-139). -/
def cascadeConnections (graph : Graph) (pkg_name : String)
    (app : Option String) : Graph :=
  match graph.connections with
  | none => graph
  | some connections =>
    let cleaned := cleanupConnections connections pkg_name app
    { graph with connections := if cleaned.isEmpty then none else some cleaned }

/-- Shallow embedding of `graph_delete_extension_node` (delete.rs:41-151).
The Rust function mutates `graph` in place and returns `Result<()>`; here
the result is the pair of the returned `Result` and the final graph state.
`validate` stands for the external
`Graph::validate_and_complete_and_flatten` call (delete.rs:143), modelled
from the spec as an opaque `validate(graph) -> Result<(), Error>` check:
on `Ok` the mutated graph is committed, on `Err(e)` the original graph is
restored and `e` is propagated unchanged (delete.rs:145-149). -/
def graph_delete_extension_node (validate : Graph → Except String Unit)
    (graph : Graph) (pkg_name : String) (addon : String)
    (app : Option String) (extension_group : Option String) :
    Except String Unit × Graph :=
  -- Store the original state in case validation fails (delete.rs:49).
  let original_graph := graph
  -- Find and remove the matching node (delete.rs:52-59).
  let afterRemoval := removeMatchingNodes graph pkg_name addon app extension_group
  -- If no node was removed, return early (delete.rs:62-64).
  if afterRemoval.nodes.length == graph.nodes.length then
    (Except.ok (), afterRemoval)
  else
    -- The node was removed, now clean up any connections (delete.rs:67-140).
    let mutated := cascadeConnections afterRemoval pkg_name app
    -- Validate the graph (delete.rs:143-150).
    match validate mutated with
    | Except.ok _ => (Except.ok (), mutated)
    | Except.error e => (Except.error e, original_graph)

/-! Concrete sample data used by witnesses and counterexamples. -/

/-- Sample extension node `A` (addon `addon1`, app `None`, group `None`). -/
def nodeA : GraphNode := { type_ := .extension, name := "A", addon := some "addon1" }

/-- Sample extension node `B` (addon `addon2`, app `None`, group `None`). -/
def nodeB : GraphNode := { type_ := .extension, name := "B", addon := some "addon2" }

/-- The location of extension `A` in the default app. -/
def locA : GraphLoc := { extension := some "A", app := none }

/-- The location of extension `B` in the default app. -/
def locB : GraphLoc := { extension := some "B", app := none }

/-- A destination pointing at extension `A`. -/
def destA : GraphDestination := { loc := locA }

/-- A destination pointing at extension `B`. -/
def destB : GraphDestination := { loc := locB }

/-- Connection sourced at `A` carrying a `cmd` flow with destination `B`. -/
def connAtoB : GraphConnection :=
  { loc := locA, cmd := some [{ name := "m", dest := [destB] }] }

/-- Connection sourced at `B` carrying a `data` flow whose sole destination is `A`. -/
def connBtoA : GraphConnection :=
  { loc := locB, data := some [{ name := "d", dest := [destA] }] }

/-- The spec's scenario graph: node `A` plus the connections `A → B` and `B → A`. -/
def scenarioGraph : Graph :=
  { nodes := [nodeA], connections := some [connAtoB, connBtoA] }

/-- A `B`-sourced connection with a `cmd` flow targeting only `A` and a
`data` flow targeting `B`. -/
def connMixed : GraphConnection :=
  { loc := locB, cmd := some [{ name := "m", dest := [destA] }],
    data := some [{ name := "d", dest := [destB] }] }

/-- What `connMixed` becomes after deleting `A`: its `cmd` container is left
present but empty. -/
def connMixedAfter : GraphConnection :=
  { loc := locB, cmd := some [], data := some [{ name := "d", dest := [destB] }] }

/-- Graph with nodes `A`, `B` and the single connection `connMixed`. -/
def mixedGraph : Graph :=
  { nodes := [nodeA, nodeB], connections := some [connMixed] }

/-- A `B`-sourced connection whose only flow targets `B` itself. -/
def connBtoB : GraphConnection :=
  { loc := locB, cmd := some [{ name := "m", dest := [destB] }] }

/-- A destination with no extension set. -/
def destNone : GraphDestination := { loc := { extension := none, app := none } }

/-- A connection whose source location has no extension set. -/
def connNoneSrc : GraphConnection :=
  { loc := { extension := none, app := none },
    cmd := some [{ name := "m", dest := [destB] }] }

/-- A flow containing both an extension-less destination and one to `B`. -/
def flowWithNone : GraphMessageFlow := { name := "m", dest := [destNone, destB] }

/-- A graph that contains no node matching the target identity `A`. -/
def noopGraph : Graph := { nodes := [nodeB], connections := none }

/-- A graph whose only node matches the target identity `A`. -/
def singleNodeGraph : Graph := { nodes := [nodeA], connections := none }

/-! Helper lemmas about the embedded operations. -/

/-- The connection cascade never touches the node list. -/
theorem cascadeConnections_nodes (graph : Graph) (pkg_name : String)
    (app : Option String) :
    (cascadeConnections graph pkg_name app).nodes = graph.nodes := by
  unfold cascadeConnections
  cases graph.connections <;> rfl

/-- The per-connection flow cleanup keeps the connection's source location. -/
theorem cleanupConnection_loc (connection : GraphConnection)
    (pkg_name : String) (app : Option String) :
    (cleanupConnection connection pkg_name app).loc = connection.loc := rfl

/-- Destinations surviving `processFlows` never match the target location. -/
theorem processFlows_dest_not_target (flows : List GraphMessageFlow)
    (pkg_name : String) (app : Option String) (flow : GraphMessageFlow)
    (hf : flow ∈ processFlows flows pkg_name app)
    (dest : GraphDestination) (hd : dest ∈ flow.dest) :
    locMatchesTarget dest.loc pkg_name app = false := by
  unfold processFlows at hf
  obtain ⟨hf, -⟩ := List.mem_filter.mp hf
  obtain ⟨flow₀, -, rfl⟩ := List.mem_map.mp hf
  unfold filterFlowDest at hd
  simp only [List.mem_filter, Bool.not_eq_true'] at hd
  exact hd.2

/-- Every member of `cleanupConnections` is the cleanup of an original
connection whose source location does not match the target. -/
theorem mem_cleanupConnections (connections : List GraphConnection)
    (pkg_name : String) (app : Option String) (conn : GraphConnection)
    (h : conn ∈ cleanupConnections connections pkg_name app) :
    ∃ conn₀ ∈ connections,
      locMatchesTarget conn₀.loc pkg_name app = false ∧
      conn = cleanupConnection conn₀ pkg_name app ∧
      connectionHasFlows conn = true := by
  unfold cleanupConnections at h
  obtain ⟨h, hflows⟩ := List.mem_filter.mp h
  obtain ⟨conn₀, h₀, rfl⟩ := List.mem_map.mp h
  obtain ⟨hmem, hloc⟩ := List.mem_filter.mp h₀
  exact ⟨conn₀, hmem, by simpa using hloc, rfl, hflows⟩

/-- On a successful call that removed at least one node, the final graph is
exactly the cascaded graph submitted to validation. -/
theorem delete_success_eq (validate : Graph → Except String Unit)
    (graph g' : Graph) (pkg_name addon : String)
    (app extension_group : Option String)
    (hremoved :
      (removeMatchingNodes graph pkg_name addon app extension_group).nodes.length
        ≠ graph.nodes.length)
    (h : graph_delete_extension_node validate graph pkg_name addon app
        extension_group = (Except.ok (), g')) :
    g' = cascadeConnections
      (removeMatchingNodes graph pkg_name addon app extension_group)
      pkg_name app := by
  simp only [graph_delete_extension_node] at h
  rw [if_neg (by simpa using hremoved)] at h
  cases hv : validate (cascadeConnections
      (removeMatchingNodes graph pkg_name addon app extension_group)
      pkg_name app) with
  | ok u => rw [hv] at h; exact ((Prod.mk.injEq _ _ _ _).mp h).2.symm
  | error e =>
    rw [hv] at h
    exact absurd ((Prod.mk.injEq _ _ _ _).mp h).1 (by simp)

/-! Claim theorems. -/

/-- C1: if `graph_delete_extension_node` removes at least one node and the
external validation step then fails, the function returns the validator's
error unchanged and the graph is restored to be deep-equal to its state
immediately before the call (full rollback). -/
theorem delete_rollback_on_validation_failure
    (validate : Graph → Except String Unit) (graph : Graph)
    (pkg_name addon : String) (app extension_group : Option String)
    (e : String)
    (hremoved :
      (removeMatchingNodes graph pkg_name addon app extension_group).nodes.length
        ≠ graph.nodes.length)
    (hfail : validate (cascadeConnections
        (removeMatchingNodes graph pkg_name addon app extension_group)
        pkg_name app) = Except.error e) :
    graph_delete_extension_node validate graph pkg_name addon app
      extension_group = (Except.error e, graph) := by
  simp only [graph_delete_extension_node]
  rw [if_neg (by simpa using hremoved), hfail]

/-- Witness for C1: deleting `A` from the scenario graph under an
always-failing validator returns the validator's error and the unchanged
graph. -/
theorem delete_rollback_on_validation_failure_witness :
    graph_delete_extension_node (fun _ => Except.error "invalid")
      scenarioGraph "A" "addon1" none none
      = (Except.error "invalid", scenarioGraph) :=
  delete_rollback_on_validation_failure (fun _ => Except.error "invalid")
    scenarioGraph "A" "addon1" none none "invalid" (by decide) rfl

/-- C4: deleting an identity that matches no node reports success and
leaves the graph deep-equal to its pre-call state, for every validator
(so neither the connection cascade nor the external validation step can
influence the result). -/
theorem delete_noop_property (validate : Graph → Except String Unit)
    (graph : Graph) (pkg_name addon : String)
    (app extension_group : Option String)
    (hnone : ∀ node ∈ graph.nodes,
      nodeMatchesTarget node pkg_name addon app extension_group = false) :
    graph_delete_extension_node validate graph pkg_name addon app
      extension_group = (Except.ok (), graph) := by
  have hfilter : graph.nodes.filter
      (fun node => !(nodeMatchesTarget node pkg_name addon app extension_group))
        = graph.nodes :=
    List.filter_eq_self.mpr (fun node hn => by simp [hnone node hn])
  simp only [graph_delete_extension_node, removeMatchingNodes, hfilter]
  rw [if_pos (by simp)]

/-- Witness for C4: deleting the unmatched identity `A` from `noopGraph`
succeeds and changes nothing, even under an always-failing validator. -/
theorem delete_noop_property_witness :
    graph_delete_extension_node (fun _ => Except.error "never") noopGraph
      "A" "addon1" none none = (Except.ok (), noopGraph) :=
  delete_noop_property (fun _ => Except.error "never") noopGraph
    "A" "addon1" none none (by decide)

/-- C9: on the scenario graph (node `A`; connection `A → B` with a `cmd`
flow to `B`; connection `B → A` with a `data` flow whose sole destination
is `A`), deleting `A` with a succeeding validator removes the node, drops
the whole `A`-sourced connection, strips `A` from the `B`-sourced `data`
flow, drops the emptied flow and then the flowless connection, and leaves
`connections = none`. -/
theorem scenario_delete_node_A :
    graph_delete_extension_node (fun _ => Except.ok ()) scenarioGraph
      "A" "addon1" none none
      = (Except.ok (), { nodes := [], connections := none }) := rfl

/-- Destinations of flows surviving a mapped per-category cleanup never
match the target location. -/
theorem mapped_flows_dest_not_target (o : Option (List GraphMessageFlow))
    (pkg_name : String) (app : Option String) (fs : List GraphMessageFlow)
    (h : o.map (fun flows => processFlows flows pkg_name app) = some fs)
    (flow : GraphMessageFlow) (hflow : flow ∈ fs)
    (dest : GraphDestination) (hdest : dest ∈ flow.dest) :
    locMatchesTarget dest.loc pkg_name app = false := by
  rcases o with _ | flows₀
  · simp at h
  · simp only [Option.map_some', Option.some.injEq] at h
    exact processFlows_dest_not_target flows₀ pkg_name app flow (h ▸ hflow)
      dest hdest

/-- C2: after a successful call that removed at least one node, no
remaining connection's own source location matches the target identity,
and no destination of any `cmd`, `data`, `audio_frame` or `video_frame`
flow of any remaining connection matches it. -/
theorem delete_cascade_completeness
    (validate : Graph → Except String Unit) (graph g' : Graph)
    (pkg_name addon : String) (app extension_group : Option String)
    (hremoved :
      (removeMatchingNodes graph pkg_name addon app extension_group).nodes.length
        ≠ graph.nodes.length)
    (hsuccess : graph_delete_extension_node validate graph pkg_name addon app
        extension_group = (Except.ok (), g'))
    (conns : List GraphConnection) (hconns : g'.connections = some conns)
    (conn : GraphConnection) (hconn : conn ∈ conns)
    (category : Option (List GraphMessageFlow))
    (hcat : category ∈ [conn.cmd, conn.data, conn.audio_frame, conn.video_frame])
    (fs : List GraphMessageFlow) (hfs : category = some fs)
    (flow : GraphMessageFlow) (hflow : flow ∈ fs)
    (dest : GraphDestination) (hdest : dest ∈ flow.dest) :
    locMatchesTarget conn.loc pkg_name app = false ∧
    locMatchesTarget dest.loc pkg_name app = false := by
  obtain rfl := delete_success_eq validate graph g' pkg_name addon app
    extension_group hremoved hsuccess
  rcases hgc : graph.connections with _ | cs
  · rw [show (cascadeConnections
        (removeMatchingNodes graph pkg_name addon app extension_group)
        pkg_name app).connections = none by
      simp [cascadeConnections, removeMatchingNodes, hgc]] at hconns
    exact absurd hconns (by simp)
  · rw [show (cascadeConnections
        (removeMatchingNodes graph pkg_name addon app extension_group)
        pkg_name app).connections
          = if (cleanupConnections cs pkg_name app).isEmpty then none
            else some (cleanupConnections cs pkg_name app) by
      simp [cascadeConnections, removeMatchingNodes, hgc]] at hconns
    by_cases hemp : (cleanupConnections cs pkg_name app).isEmpty
    · rw [if_pos hemp] at hconns
      exact absurd hconns (by simp)
    · rw [if_neg hemp] at hconns
      obtain rfl : conns = cleanupConnections cs pkg_name app :=
        (Option.some.injEq _ _ ▸ hconns).symm
      obtain ⟨conn₀, -, hloc, rfl, -⟩ :=
        mem_cleanupConnections cs pkg_name app conn hconn
      refine ⟨hloc, ?_⟩
      subst hfs
      simp only [List.mem_cons, List.not_mem_nil, or_false] at hcat
      rcases hcat with hcateq | hcateq | hcateq | hcateq <;>
        exact mapped_flows_dest_not_target _ pkg_name app fs hcateq.symm
          flow hflow dest hdest

/-- Witness for C2: after deleting `A` from `mixedGraph`, the surviving
connection keeps only the `data` flow to `B`, whose destination does not
match the target. -/
theorem delete_cascade_completeness_witness :
    locMatchesTarget connMixedAfter.loc "A" none = false ∧
    locMatchesTarget destB.loc "A" none = false :=
  delete_cascade_completeness (fun _ => Except.ok ()) mixedGraph
    { nodes := [nodeB], connections := some [connMixedAfter] }
    "A" "addon1" none none (by decide) rfl [connMixedAfter] rfl
    connMixedAfter (by decide) connMixedAfter.data (by decide)
    [{ name := "d", dest := [destB] }] (by decide)
    { name := "d", dest := [destB] } (by decide) destB (by decide)

/-- C5: the node-removal step keeps exactly the nodes that are not an
`Extension` node whose `name`, `addon` (as `Some addon`), `app` and
`extension_group` all equal the target identity; all matching nodes are
removed and all other nodes are kept. -/
theorem removeMatchingNodes_mem_iff (graph : Graph) (pkg_name addon : String)
    (app extension_group : Option String) (node : GraphNode) :
    node ∈ (removeMatchingNodes graph pkg_name addon app extension_group).nodes
      ↔ node ∈ graph.nodes ∧
        ¬(node.type_ = GraphNodeType.extension ∧ node.name = pkg_name ∧
          node.addon = some addon ∧ node.app = app ∧
          node.extension_group = extension_group) := by
  simp only [removeMatchingNodes, List.mem_filter, nodeMatchesTarget,
    Bool.not_eq_true', Bool.and_eq_false_iff, beq_eq_false_iff_ne, ne_eq,
    Bool.and_eq_true, beq_iff_eq]
  tauto

/-- C7: a connection whose own source location matches the target identity
is dropped in its entirety by the cascade: no connection with that source
location survives `cleanupConnections`, regardless of what flows the
connection carried. -/
theorem source_matching_connection_dropped
    (connections : List GraphConnection) (pkg_name : String)
    (app : Option String) (conn : GraphConnection)
    (_hmem : conn ∈ connections)
    (hmatch : locMatchesTarget conn.loc pkg_name app = true)
    (conn' : GraphConnection)
    (h : conn' ∈ cleanupConnections connections pkg_name app) :
    conn'.loc ≠ conn.loc := by
  obtain ⟨conn₀, -, hloc, rfl, -⟩ :=
    mem_cleanupConnections connections pkg_name app conn' h
  intro heq
  rw [cleanupConnection_loc] at heq
  rw [heq, hmatch] at hloc
  exact absurd hloc (by simp)

/-- Witness for C7: the `A`-sourced connection is dropped whole even though
its only destination (`B`) is unrelated to the deleted node, while the
`B`-sourced connection survives. -/
theorem source_matching_connection_dropped_witness :
    cleanupConnections [connAtoB, connBtoB] "A" none = [connBtoB] ∧
    connBtoB.loc ≠ connAtoB.loc :=
  ⟨by decide, source_matching_connection_dropped [connAtoB, connBtoB] "A"
    none connAtoB (by decide) (by decide) connBtoB (by decide)⟩

/-- C8: the destination filter discards a destination exactly when its
`loc.extension` equals `Some` of the target name and its `loc.app` equals
the target app, `None` matching only `None`: a destination survives the
filter iff it was present and does not match on both fields. -/
theorem filterFlowDest_mem_iff (flow : GraphMessageFlow) (pkg_name : String)
    (app : Option String) (dest : GraphDestination) :
    dest ∈ (filterFlowDest flow pkg_name app).dest ↔
      dest ∈ flow.dest ∧
        ¬(dest.loc.extension = some pkg_name ∧ dest.loc.app = app) := by
  simp only [filterFlowDest, List.mem_filter, locMatchesTarget,
    Bool.not_eq_true', Bool.and_eq_false_iff, beq_eq_false_iff_ne, ne_eq,
    Bool.and_eq_true, beq_iff_eq]
  tauto

/-- C10: matching always requires `loc.extension = Some (target name)`:
a connection whose source location has no extension set survives the
source-matching filter, and a destination with no extension set survives
the destination filter, even when the app fields agree (including when the
target app is `None`). -/
theorem none_extension_never_pruned
    (pkg_name : String) (app : Option String)
    (connections : List GraphConnection) (conn : GraphConnection)
    (hconn : conn ∈ connections) (hext : conn.loc.extension = none)
    (flow : GraphMessageFlow) (dest : GraphDestination)
    (hdest : dest ∈ flow.dest) (hdext : dest.loc.extension = none) :
    conn ∈ connections.filter
        (fun c => !(locMatchesTarget c.loc pkg_name app)) ∧
    dest ∈ (filterFlowDest flow pkg_name app).dest := by
  constructor
  · exact List.mem_filter.mpr ⟨hconn, by simp [locMatchesTarget, hext]⟩
  · exact List.mem_filter.mpr ⟨hdest, by simp [locMatchesTarget, hdext]⟩

/-- Witness for C10: with target `("A", app = None)`, the extension-less
connection and the extension-less destination (whose app fields both equal
the target's `None` app) are kept by the respective filters. -/
theorem none_extension_never_pruned_witness :
    connNoneSrc ∈ List.filter
        (fun c => !(locMatchesTarget c.loc "A" none)) [connNoneSrc] ∧
    destNone ∈ (filterFlowDest flowWithNone "A" none).dest :=
  none_extension_never_pruned "A" none [connNoneSrc] connNoneSrc (by decide)
    (by decide) flowWithNone destNone (by decide) (by decide)

/-- Counterexample to C3 as stated: deleting `A` from `mixedGraph`
succeeds having removed a node, yet the surviving connection keeps a
present-but-empty `cmd` container (`some []`), because the per-category
cleanup drops emptied flows but never collapses an emptied container to
`none`. -/
theorem delete_normalization_counterexample :
    (graph_delete_extension_node (fun _ => Except.ok ()) mixedGraph
        "A" "addon1" none none).1 = Except.ok () ∧
    (graph_delete_extension_node (fun _ => Except.ok ()) mixedGraph
        "A" "addon1" none none).2
      = { nodes := [nodeB], connections := some [connMixedAfter] } ∧
    connMixedAfter.cmd = some ([] : List GraphMessageFlow) :=
  ⟨rfl, by decide, rfl⟩

/-- C3 amended: after a successful call that removed at least one node,
the graph's `connections` field is never `some []` (it is normalized to
`none` when no connections remain), and every remaining connection has at
least one category container that is present and non-empty; an individual
emptied category container, however, may be left behind as `some []`. -/
theorem delete_connections_normalized
    (validate : Graph → Except String Unit) (graph g' : Graph)
    (pkg_name addon : String) (app extension_group : Option String)
    (hremoved :
      (removeMatchingNodes graph pkg_name addon app extension_group).nodes.length
        ≠ graph.nodes.length)
    (hsuccess : graph_delete_extension_node validate graph pkg_name addon app
        extension_group = (Except.ok (), g'))
    (conns : List GraphConnection) (hconns : g'.connections = some conns)
    (conn : GraphConnection) (hconn : conn ∈ conns) :
    conns ≠ [] ∧ connectionHasFlows conn = true := by
  obtain rfl := delete_success_eq validate graph g' pkg_name addon app
    extension_group hremoved hsuccess
  rcases hgc : graph.connections with _ | cs
  · rw [show (cascadeConnections
        (removeMatchingNodes graph pkg_name addon app extension_group)
        pkg_name app).connections = none by
      simp [cascadeConnections, removeMatchingNodes, hgc]] at hconns
    exact absurd hconns (by simp)
  · rw [show (cascadeConnections
        (removeMatchingNodes graph pkg_name addon app extension_group)
        pkg_name app).connections
          = if (cleanupConnections cs pkg_name app).isEmpty then none
            else some (cleanupConnections cs pkg_name app) by
      simp [cascadeConnections, removeMatchingNodes, hgc]] at hconns
    by_cases hemp : (cleanupConnections cs pkg_name app).isEmpty
    · rw [if_pos hemp] at hconns
      exact absurd hconns (by simp)
    · rw [if_neg hemp] at hconns
      obtain rfl : conns = cleanupConnections cs pkg_name app :=
        (Option.some.injEq _ _ ▸ hconns).symm
      obtain ⟨-, -, -, -, hflows⟩ :=
        mem_cleanupConnections cs pkg_name app conn hconn
      exact ⟨by simpa using hemp, hflows⟩

/-- Witness for the amended C3: after deleting `A` from `mixedGraph`, the
surviving connection list is non-empty and its member still carries flows. -/
theorem delete_connections_normalized_witness :
    [connMixedAfter] ≠ ([] : List GraphConnection) ∧
    connectionHasFlows connMixedAfter = true :=
  delete_connections_normalized (fun _ => Except.ok ()) mixedGraph
    { nodes := [nodeB], connections := some [connMixedAfter] }
    "A" "addon1" none none (by decide) rfl [connMixedAfter] rfl
    connMixedAfter (by decide)

/-- Counterexample to C6 as stated: a call that deletes a node and a call
that matches nothing both return the same `Ok` value, so the function's
result does not tell the caller whether a node was removed; only the graph
state differs (unchanged in the no-op, one node fewer after the deletion). -/
theorem delete_result_value_counterexample :
    (graph_delete_extension_node (fun _ => Except.ok ()) noopGraph
        "A" "addon1" none none).1 = Except.ok () ∧
    (graph_delete_extension_node (fun _ => Except.ok ()) singleNodeGraph
        "A" "addon1" none none).1 = Except.ok () ∧
    (graph_delete_extension_node (fun _ => Except.ok ()) noopGraph
        "A" "addon1" none none).2 = noopGraph ∧
    (graph_delete_extension_node (fun _ => Except.ok ()) singleNodeGraph
        "A" "addon1" none none).2.nodes.length
      < singleNodeGraph.nodes.length :=
  ⟨rfl, rfl, by decide, by decide⟩

/-- C6 amended: the returned value is `Ok` in both the no-op and the
successful-deletion outcome and does not by itself distinguish them; the
caller can distinguish through the graph: on success, the final graph
equals the pre-call graph exactly when the removal step removed nothing,
and has strictly fewer nodes whenever a node was removed. -/
theorem delete_outcome_distinguished_by_graph
    (validate : Graph → Except String Unit) (graph g' : Graph)
    (pkg_name addon : String) (app extension_group : Option String)
    (hsuccess : graph_delete_extension_node validate graph pkg_name addon app
        extension_group = (Except.ok (), g')) :
    (g' = graph ↔
      (removeMatchingNodes graph pkg_name addon app extension_group).nodes.length
        = graph.nodes.length) ∧
    ((removeMatchingNodes graph pkg_name addon app extension_group).nodes.length
        ≠ graph.nodes.length → g'.nodes.length < graph.nodes.length) := by
  by_cases hc :
    (removeMatchingNodes graph pkg_name addon app extension_group).nodes.length
      = graph.nodes.length
  · have hall : ∀ node ∈ graph.nodes,
        nodeMatchesTarget node pkg_name addon app extension_group = false := by
      intro node hn
      by_contra hmatch
      have hlt : (graph.nodes.filter fun n =>
          !(nodeMatchesTarget n pkg_name addon app extension_group)).length
            < graph.nodes.length :=
        List.length_filter_lt_length_iff_exists.mpr
          ⟨node, hn, by simpa using hmatch⟩
      exact absurd hc (by simpa [removeMatchingNodes] using Nat.ne_of_lt hlt)
    have hnoop := delete_noop_property validate graph pkg_name addon app
      extension_group hall
    rw [hsuccess] at hnoop
    have hg : g' = graph := ((Prod.mk.injEq _ _ _ _).mp hnoop).2
    exact ⟨⟨fun _ => hc, fun _ => hg⟩, fun hne => absurd hc hne⟩
  · have hg' := delete_success_eq validate graph g' pkg_name addon app
      extension_group hc hsuccess
    have hlt : g'.nodes.length < graph.nodes.length := by
      rw [hg', cascadeConnections_nodes]
      exact Nat.lt_of_le_of_ne
        (by simpa [removeMatchingNodes] using List.length_filter_le _ graph.nodes)
        hc
    refine ⟨⟨fun hgg => absurd ?_ hc, fun heq => absurd heq hc⟩, fun _ => hlt⟩
    rw [hgg] at hlt
    exact absurd hlt (lt_irrefl _)

/-- Witness for the amended C6: deleting `A` from the one-node graph
succeeds, and the final graph's node count strictly dropped, which is how
the caller can tell a deletion from a no-op. -/
theorem delete_outcome_distinguished_by_graph_witness :
    (({ nodes := [], connections := none } : Graph) = singleNodeGraph ↔
      (removeMatchingNodes singleNodeGraph "A" "addon1" none none).nodes.length
        = singleNodeGraph.nodes.length) ∧
    ((removeMatchingNodes singleNodeGraph "A" "addon1" none none).nodes.length
        ≠ singleNodeGraph.nodes.length →
      ({ nodes := [], connections := none } : Graph).nodes.length
        < singleNodeGraph.nodes.length) :=
  delete_outcome_distinguished_by_graph (fun _ => Except.ok ())
    singleNodeGraph { nodes := [], connections := none }
    "A" "addon1" none none rfl

end TenGraph
